import Mathlib

/-!
Shallow embedding of the self-referential pinned containers:

* `SelfRef` (file `src/pin/固定结构体.rs`): a record owning a `String`
  whose internal buffer lives on the heap, together with a raw pointer
  (`ptr : *const str`) into that buffer, kept pinned behind
  `Pin<Box<SelfRef>>`.

* `OptionalSelfRef<T>` (file `src/pin/解除pin固定.rs`): a container
  holding `data : Box<T>` plus an optional raw pointer
  `self_ref : Option<*const T>` into the boxed value.

Memory model: addresses are natural numbers, `0` is the null address,
and a heap is an association list from addresses to stored values.
Allocation hands out `next` and bumps it, so fresh addresses are never
reused; dropping a `String` removes its buffer from the heap.  A raw
pointer is just the address it holds, and the `unsafe` dereference is
modelled as heap lookup, returning `none` exactly when the pointer is
null or dangling (the undefined-behaviour cases).
-/

/-- Heap of string buffers: association list from addresses to contents,
plus the next fresh address.  Models the process heap as used by the
`String` buffers and the `Box::pin` allocations of `固定结构体.rs`. -/
structure SHeap where
  cells : List (Nat × String)
  next : Nat
deriving Repr, DecidableEq

/-- Look up a live allocation; `none` models a dangling or null pointer. -/
def SHeap.read (h : SHeap) (a : Nat) : Option String :=
  (h.cells.find? (fun c => c.1 = a)).map Prod.snd

/-- Allocate a fresh buffer holding `s` (models `s.to_string()`). -/
def SHeap.alloc (h : SHeap) (s : String) : Nat × SHeap :=
  (h.next, ⟨(h.next, s) :: h.cells, h.next + 1⟩)

/-- Reserve a fresh address without storing a string there (models the
`Box::pin` allocation that holds the record itself). -/
def SHeap.allocAddr (h : SHeap) : Nat × SHeap :=
  (h.next, ⟨h.cells, h.next + 1⟩)

/-- Free the buffer at address `a` (models dropping the old `String`). -/
def SHeap.free (h : SHeap) (a : Nat) : SHeap :=
  ⟨h.cells.filter (fun c => c.1 ≠ a), h.next⟩

/-- The fields of `struct SelfRef`: `data` is the owned `String`,
recorded by the address of its internal heap buffer, and `ptr` is the
raw `*const str` stored in the record.  `PhantomPinned` has no runtime
content and is omitted. -/
structure SelfRef where
  dataAddr : Nat
  ptr : Nat
deriving Repr, DecidableEq

/-- A `Pin<Box<SelfRef>>` together with the heap it lives in:
`structAddr` is the address of the `Box::pin` allocation holding the
record, `record` the record's fields. -/
structure SPinned where
  heap : SHeap
  structAddr : Nat
  record : SelfRef
deriving Repr, DecidableEq

namespace SelfRef

/-- Source `SelfRef::new(s)` up to (but not including) `Box::pin`:
`let data = s.to_string(); let ptr = &data as &str as *const str;`
then building the record.  The `&str` view of a `String` points at the
heap buffer, so `ptr` is the buffer's address. -/
def mkLocal (s : String) : SHeap × SelfRef :=
  let h0 : SHeap := ⟨[], 1⟩
  let (a, h1) := h0.alloc s
  (h1, ⟨a, a⟩)

/-- Source `Box::pin(self_ref)`: moves the record into a fresh heap
allocation.  Moving copies the fields bitwise — `dataAddr` and `ptr`
are unchanged, and the heap buffer they concern does not move. -/
def boxPin (h : SHeap) (r : SelfRef) : SPinned :=
  let (sa, h2) := h.allocAddr
  ⟨h2, sa, r⟩

/-- Source `SelfRef::new(s) -> Pin<Box<SelfRef>>`: build the record with its
self-pointer, then pin it on the heap. -/
def new (s : String) : SPinned :=
  let (h1, r) := mkLocal s
  boxPin h1 r

/-- Source `fn get_ref(&self) -> &str`: asserts the pointer is non-null, then
dereferences it.  A failed assertion or a dangling dereference is
modelled as `none`. -/
def get_ref (st : SPinned) : Option String :=
  if st.record.ptr = 0 then none else st.heap.read st.record.ptr

/-- Source `fn update_data(self: Pin<&mut SelfRef>, new_content: &str)`:
`this.data = new_content.to_string()` allocates a new buffer and drops
the old `String` (freeing its buffer), then
`this.ptr = &this.data as &str as *const str` repoints `ptr` at the
new buffer.  The record's own address is untouched. -/
def update_data (st : SPinned) (new_content : String) : SPinned :=
  let (a, h1) := st.heap.alloc new_content
  let h2 := h1.free st.record.dataAddr
  ⟨h2, st.structAddr, ⟨a, a⟩⟩

/-- Source `fn get_struct_addr(&self) -> *const SelfRef`: the address of the
record itself. -/
def get_struct_addr (st : SPinned) : Nat :=
  st.structAddr

end SelfRef

/-- Generic heap for the `OptionalSelfRef<T>` program: association list
from addresses to stored `T` values plus the next fresh address. -/
structure Heap (T : Type) where
  cells : List (Nat × T)
  next : Nat

/-- Look up a live allocation; `none` models a dangling or null pointer. -/
def Heap.read {T : Type} (h : Heap T) (a : Nat) : Option T :=
  (h.cells.find? (fun c => c.1 = a)).map Prod.snd

/-- Allocate a fresh cell holding `v` (models `Box::new(v)`). -/
def Heap.alloc {T : Type} (h : Heap T) (v : T) : Nat × Heap T :=
  (h.next, ⟨(h.next, v) :: h.cells, h.next + 1⟩)

/-- Reserve a fresh address for a value that is not itself a `T`
(the storage of the container value, on the stack or in `Box::pin`). -/
def Heap.allocAddr {T : Type} (h : Heap T) : Nat × Heap T :=
  (h.next, ⟨h.cells, h.next + 1⟩)

/-- The fields of `struct OptionalSelfRef<T>`: `data : Box<T>` recorded
by the address of its heap cell, and `self_ref : Option<*const T>`.
`PhantomPinned` has no runtime content and is omitted. -/
structure OptionalSelfRef (T : Type) where
  dataAddr : Nat
  self_ref : Option Nat

/-- One `OptionalSelfRef<T>` value together with the memory it lives
in: `containerAddr` is the current storage address of the container
value itself, and `pinned` records whether it sits behind a `Pin`
handle. -/
structure CState (T : Type) where
  heap : Heap T
  container : OptionalSelfRef T
  containerAddr : Nat
  pinned : Bool

namespace OptionalSelfRef

/-- Models `impl<T> Unpin for OptionalSelfRef<T> where T: 'static {}`:
the implementation is unconditional in everything except the `'static`
bound, which every type parameter used by the program satisfies, so in
this embedding `OptionalSelfRef<T>: Unpin` holds for every `T` —
regardless of whether `self_ref` is set. -/
def unpinImpl (_T : Type) : Prop := True

/-- Source `fn new_no_ref(data: T) -> Self`: `Box::new(data)` with
`self_ref: None`; the result is a plain value sitting at some storage
address, not pinned. -/
def new_no_ref {T : Type} (v : T) : CState T :=
  let h0 : Heap T := ⟨[], 1⟩
  let (a, h1) := h0.alloc v
  let (ca, h2) := h1.allocAddr
  ⟨h2, ⟨a, none⟩, ca, false⟩

/-- The first statement of `new_with_ref`: build `instance` with
`data: Box::new(data)` and `self_ref: None`. -/
def mkInst {T : Type} (v : T) : Heap T × OptionalSelfRef T :=
  let h0 : Heap T := ⟨[], 1⟩
  let (a, h1) := h0.alloc v
  (h1, ⟨a, none⟩)

/-- Step 1 of `new_with_ref`: `let mut pinned = Box::pin(instance);` —
the container value moves into a fresh heap allocation and is pinned;
its fields are copied bitwise, so `dataAddr` and `self_ref` are
unchanged and the boxed `T` does not move. -/
def boxPin {T : Type} (h : Heap T) (c : OptionalSelfRef T) : CState T :=
  let (ca, h2) := h.allocAddr
  ⟨h2, c, ca, true⟩

/-- Step 2 of `new_with_ref`: interior mutation through the pin —
`mut_ref.self_ref = Some(&*mut_ref.data as *const T)`. The pointer
produced by `&*mut_ref.data` is the address of the boxed `T`
(`dataAddr`), not the container's own storage address. -/
def setSelfRef {T : Type} (st : CState T) : CState T :=
  { st with container := { st.container with self_ref := some st.container.dataAddr } }

/-- Source `fn new_with_ref(data: T) -> Pin<Box<Self>>`: build the instance
with `self_ref: None`, pin it, then set the self-reference through the
pin. -/
def new_with_ref {T : Type} (v : T) : CState T :=
  let (h1, inst) := mkInst v
  setSelfRef (boxPin h1 inst)

/-- Source `fn get_ref(&self) -> Option<&T>`:
`self.self_ref.map(|ptr| unsafe { &*ptr })`.  The raw dereference is
heap lookup; a dangling pointer would read as `none`. -/
def get_ref {T : Type} (st : CState T) : Option T :=
  match st.container.self_ref with
  | none => none
  | some p => st.heap.read p

/-- Moving the container value to a new binding: the container is
copied bitwise to a fresh storage address; `dataAddr` and `self_ref`
are values and move with it, and the boxed `T` stays where it is. -/
def moveValue {T : Type} (st : CState T) : CState T :=
  { st with
    containerAddr := st.heap.next,
    heap := { st.heap with next := st.heap.next + 1 } }

/-- Source `Pin::into_inner_unchecked`: the force-unlock escape
hatch; removes the pin with no conditions. -/
def intoInnerUnchecked {T : Type} (st : CState T) : CState T :=
  { st with pinned := false }

/-- The safe (non-`unsafe`) steps the program's API offers on an
existing container, as used in `main`: moving an unpinned value to a
new binding, `Pin::new` (requires the `Unpin` implementation), and
`Pin::into_inner` (requires the `Unpin` implementation). `get_ref`
reads the state and is not a step. -/
inductive SafeStep {T : Type} : CState T → CState T → Prop
  | moveBinding (st : CState T) (h : st.pinned = false) :
      SafeStep st (moveValue st)
  | pinNew (st : CState T) (h : st.pinned = false) (hu : unpinImpl T) :
      SafeStep st { st with pinned := true }
  | intoInner (st : CState T) (h : st.pinned = true) (hu : unpinImpl T) :
      SafeStep st { st with pinned := false }

/-- Zero or more safe steps. -/
inductive SafeReach {T : Type} : CState T → CState T → Prop
  | refl (st : CState T) : SafeReach st st
  | tail {st st' st'' : CState T} :
      SafeReach st st' → SafeStep st' st'' → SafeReach st st''

/-- States reachable through the safe API from either constructor. -/
inductive Reached {T : Type} : CState T → Prop
  | noRef (v : T) : Reached (new_no_ref v)
  | withRef (v : T) : Reached (new_with_ref v)
  | step {st st' : CState T} : Reached st → SafeStep st st' → Reached st'

end OptionalSelfRef

namespace SelfRef

/-- Allocator sanity for a pinned record: the buffer address was handed
out by the allocator, hence below the fresh-address counter. -/
def Alloc_ok (st : SPinned) : Prop :=
  st.record.dataAddr < st.heap.next

lemma sheap_read_alloc_head (cells : List (Nat × String)) (a : Nat) (s : String) :
    SHeap.read ⟨(a, s) :: cells, a + 1⟩ a = some s := by
  simp [SHeap.read]

lemma get_ref_update_data (st : SPinned) (s : String) (h : Alloc_ok st) :
    get_ref (update_data st s) = some s := by
  unfold Alloc_ok at h
  have h0 : ¬ st.heap.next = 0 := by omega
  have hne : ¬ st.heap.next = st.record.dataAddr := by omega
  simp [update_data, get_ref, SHeap.alloc, SHeap.free, SHeap.read, h0, hne]

lemma update_data_struct_addr (st : SPinned) (s : String) :
    get_struct_addr (update_data st s) = get_struct_addr st := rfl

/-- States produced by `new` followed by `update_data` calls keep the
allocator sane, the pointer equal to the buffer address and non-null,
and the buffer readable. -/
def Healthy (st : SPinned) : Prop :=
  Alloc_ok st ∧ st.record.ptr = st.record.dataAddr ∧ st.record.ptr ≠ 0 ∧
    (get_ref st).isSome

lemma healthy_new (s : String) : Healthy (new s) := by
  refine ⟨?_, rfl, ?_, ?_⟩
  · show (1 : Nat) < 3
    omega
  · show (1 : Nat) ≠ 0
    omega
  · simp [new, mkLocal, boxPin, get_ref, SHeap.alloc, SHeap.allocAddr, SHeap.read]

lemma healthy_update_data (st : SPinned) (s : String) (h : Healthy st) :
    Healthy (update_data st s) := by
  obtain ⟨hlt, -, -, -⟩ := h
  unfold Alloc_ok at hlt
  refine ⟨?_, rfl, ?_, ?_⟩
  · show st.heap.next < st.heap.next + 1
    omega
  · show st.heap.next ≠ 0
    omega
  · rw [get_ref_update_data st s hlt]
    rfl

lemma healthy_foldl (updates : List String) :
    ∀ st : SPinned, Healthy st → Healthy (updates.foldl update_data st) := by
  induction updates with
  | nil => intro st h; exact h
  | cons u us ih => intro st h; exact ih _ (healthy_update_data st u h)

lemma foldl_struct_addr (updates : List String) :
    ∀ st : SPinned,
      get_struct_addr (updates.foldl update_data st) = get_struct_addr st := by
  induction updates with
  | nil => intro st; rfl
  | cons u us ih => intro st; exact ih _

end SelfRef

namespace OptionalSelfRef

/-- Invariant of every state reachable through the safe API: the boxed
value and the container storage live at allocator-issued, distinct
addresses, the boxed value is readable, and `self_ref`, when present,
holds exactly the boxed value's address. -/
def Inv {T : Type} (st : CState T) : Prop :=
  st.container.dataAddr < st.heap.next ∧
  st.containerAddr < st.heap.next ∧
  st.container.dataAddr ≠ st.containerAddr ∧
  (st.heap.read st.container.dataAddr).isSome ∧
  (∀ p, st.container.self_ref = some p → p = st.container.dataAddr)

lemma inv_new_no_ref {T : Type} (v : T) : Inv (new_no_ref v) := by
  refine ⟨?_, ?_, ?_, ?_, ?_⟩
  · show (1 : Nat) < 3
    omega
  · show (2 : Nat) < 3
    omega
  · show (1 : Nat) ≠ 2
    omega
  · simp [new_no_ref, Heap.alloc, Heap.allocAddr, Heap.read]
  · intro p hp; cases hp

lemma inv_new_with_ref {T : Type} (v : T) : Inv (new_with_ref v) := by
  refine ⟨?_, ?_, ?_, ?_, ?_⟩
  · show (1 : Nat) < 3
    omega
  · show (2 : Nat) < 3
    omega
  · show (1 : Nat) ≠ 2
    omega
  · simp [new_with_ref, mkInst, boxPin, setSelfRef, Heap.alloc, Heap.allocAddr,
      Heap.read]
  · intro p hp
    simp [new_with_ref, mkInst, boxPin, setSelfRef, Heap.alloc,
      Heap.allocAddr] at hp ⊢
    exact hp.symm

lemma inv_step {T : Type} {st st' : CState T} (hs : SafeStep st st')
    (h : Inv st) : Inv st' := by
  obtain ⟨h1, h2, h3, h4, h5⟩ := h
  cases hs with
  | moveBinding hp =>
      refine ⟨?_, ?_, ?_, ?_, ?_⟩
      · show st.container.dataAddr < st.heap.next + 1
        omega
      · show st.heap.next < st.heap.next + 1
        omega
      · show st.container.dataAddr ≠ st.heap.next
        omega
      · simpa [moveValue, Heap.read] using h4
      · intro p hp'
        exact h5 p hp'
  | pinNew hp hu => exact ⟨h1, h2, h3, h4, h5⟩
  | intoInner hp hu => exact ⟨h1, h2, h3, h4, h5⟩

lemma inv_reached {T : Type} {st : CState T} (h : Reached st) : Inv st := by
  induction h with
  | noRef v => exact inv_new_no_ref v
  | withRef v => exact inv_new_with_ref v
  | step _ hs ih => exact inv_step hs ih

end OptionalSelfRef

/-- C3: for every value type `T` and value `v`, `get_ref` on the
container produced by `new_with_ref v` returns `some` of a view equal
to the value `v` passed at construction. -/
theorem C3_new_with_ref_get_ref (T : Type) (v : T) :
    OptionalSelfRef.get_ref (OptionalSelfRef.new_with_ref v) = some v := rfl

/-- C6: for every input text `s`, the record returned by
`SelfRef::new s` satisfies `get_ref = some s` immediately after
construction; the record's fields (hence the self-pointer computed
before the move into `Box::pin`) are preserved bitwise by that move,
and the pointer still dereferences to `s` afterwards. -/
theorem C6_new_get_ref (s : String) :
    SelfRef.get_ref (SelfRef.new s) = some s ∧
    (SelfRef.new s).record = (SelfRef.mkLocal s).2 ∧
    (SelfRef.new s).heap.read (SelfRef.mkLocal s).2.ptr = some s :=
  ⟨rfl, rfl, rfl⟩

/-- C2: for every record whose buffer address was issued by the
allocator, immediately after `update_data st new_text` the accessor
`get_ref` returns exactly `new_text` — never the previous buffer
contents and never content of a freed allocation — and the
self-pointer already equals the new buffer's address in that same
post-state (buffer replacement and pointer recomputation happen in one
step). -/
theorem C2_update_data_get_ref (st : SPinned) (new_text : String)
    (h : SelfRef.Alloc_ok st) :
    SelfRef.get_ref (SelfRef.update_data st new_text) = some new_text ∧
    (SelfRef.update_data st new_text).record.ptr =
      (SelfRef.update_data st new_text).record.dataAddr :=
  ⟨SelfRef.get_ref_update_data st new_text h, rfl⟩

/-- Witness for C2 at the spec's example: the record built from
"alpha", updated with "beta-longer-string". -/
theorem C2_update_data_get_ref_witness :
    SelfRef.Alloc_ok (SelfRef.new "alpha") ∧
    SelfRef.get_ref
        (SelfRef.update_data (SelfRef.new "alpha") "beta-longer-string") =
      some "beta-longer-string" :=
  ⟨by show (1 : Nat) < 3; omega,
   (C2_update_data_get_ref (SelfRef.new "alpha") "beta-longer-string"
      (by show (1 : Nat) < 3; omega)).1⟩

/-- C4: for every pinned record and every finite sequence of
`update_data` calls, `get_struct_addr` returns the same value before
and after each call — stepwise and for the whole sequence. -/
theorem C4_struct_addr_stable (st : SPinned) (calls : List String) :
    (∀ s, SelfRef.get_struct_addr (SelfRef.update_data st s) =
      SelfRef.get_struct_addr st) ∧
    SelfRef.get_struct_addr (calls.foldl SelfRef.update_data st) =
      SelfRef.get_struct_addr st :=
  ⟨fun _ => rfl, SelfRef.foldl_struct_addr calls st⟩

/-- C8: for every record produced by `SelfRef::new` followed by any
sequence of `update_data` calls, the stored pointer is non-null and
dereferences to a live buffer, so the assertion inside `get_ref`
passes and `get_ref` returns a value. -/
theorem C8_get_ref_never_fails (s : String) (updates : List String) :
    (updates.foldl SelfRef.update_data (SelfRef.new s)).record.ptr ≠ 0 ∧
    (SelfRef.get_ref (updates.foldl SelfRef.update_data (SelfRef.new s))).isSome :=
  have h := SelfRef.healthy_foldl updates (SelfRef.new s) (SelfRef.healthy_new s)
  ⟨h.2.2.1, h.2.2.2⟩

/-- C5: `new_with_ref` follows the exact step order of the source for
every input: the instance is first built with `self_ref` absent, then
wrapped by `Box::pin` (still with `self_ref` absent but already
pinned), and only then is `self_ref` set — through interior mutation —
to the address of the boxed data. -/
theorem C5_new_with_ref_order (T : Type) (v : T) :
    (OptionalSelfRef.mkInst v).2.self_ref = none ∧
    (OptionalSelfRef.boxPin (OptionalSelfRef.mkInst v).1
      (OptionalSelfRef.mkInst v).2).pinned = true ∧
    (OptionalSelfRef.boxPin (OptionalSelfRef.mkInst v).1
      (OptionalSelfRef.mkInst v).2).container.self_ref = none ∧
    OptionalSelfRef.new_with_ref v =
      OptionalSelfRef.setSelfRef
        (OptionalSelfRef.boxPin (OptionalSelfRef.mkInst v).1
          (OptionalSelfRef.mkInst v).2) ∧
    (OptionalSelfRef.new_with_ref v).container.self_ref =
      some (OptionalSelfRef.new_with_ref v).container.dataAddr ∧
    (OptionalSelfRef.new_with_ref v).pinned = true :=
  ⟨rfl, rfl, rfl, rfl, rfl, rfl⟩

/-- C7: a container built by `new_no_ref` yields `get_ref = none`;
this stays true after moving it to a new binding and after wrapping it
in a pin and unwrapping it again (a safe-step sequence), and no safe
step ever establishes a self-reference on a container whose
`self_ref` is absent. -/
theorem C7_no_ref_stays_none (T : Type) (v : T) :
    OptionalSelfRef.get_ref (OptionalSelfRef.new_no_ref v) = none ∧
    OptionalSelfRef.get_ref
      (OptionalSelfRef.moveValue (OptionalSelfRef.new_no_ref v)) = none ∧
    OptionalSelfRef.SafeReach (OptionalSelfRef.new_no_ref v)
      { { OptionalSelfRef.moveValue (OptionalSelfRef.new_no_ref v) with
          pinned := true } with pinned := false } ∧
    OptionalSelfRef.get_ref
      { { OptionalSelfRef.moveValue (OptionalSelfRef.new_no_ref v) with
          pinned := true } with pinned := false } = none ∧
    (∀ st st' : CState T, OptionalSelfRef.SafeStep st st' →
      st.container.self_ref = none → st'.container.self_ref = none) := by
  refine ⟨rfl, rfl, ?_, rfl, ?_⟩
  · exact .tail (.tail (.tail (.refl _) (.moveBinding _ rfl))
      (.pinNew _ rfl trivial)) (.intoInner _ rfl trivial)
  · intro st st' hs hnone
    cases hs with
    | moveBinding hp => exact hnone
    | pinNew hp hu => exact hnone
    | intoInner hp hu => exact hnone

/-- Witness for C7 at the spec's example value 42: `get_ref` is `none`
after construction, and the move step (a concrete safe step from a
state with `self_ref` absent) leaves `self_ref` absent. -/
theorem C7_no_ref_stays_none_witness :
    OptionalSelfRef.get_ref (OptionalSelfRef.new_no_ref (42 : Nat)) = none ∧
    (OptionalSelfRef.moveValue
      (OptionalSelfRef.new_no_ref (42 : Nat))).container.self_ref = none :=
  ⟨(C7_no_ref_stays_none Nat 42).1,
   (C7_no_ref_stays_none Nat 42).2.2.2.2 _ _
     (OptionalSelfRef.SafeStep.moveBinding _ rfl) rfl⟩

/-- C9: `get_ref` is total with no runtime error path — it returns
`none` whenever `self_ref` is absent, and on every state reachable
through the safe API (either construction path) it returns a value
exactly when `self_ref` is present. -/
theorem C9_get_ref_total :
    (∀ (T : Type) (st : CState T), st.container.self_ref = none →
      OptionalSelfRef.get_ref st = none) ∧
    (∀ (T : Type) (st : CState T), OptionalSelfRef.Reached st →
      ((OptionalSelfRef.get_ref st).isSome ↔ st.container.self_ref.isSome)) := by
  constructor
  · intro T st h
    simp [OptionalSelfRef.get_ref, h]
  · intro T st hr
    obtain ⟨-, -, -, hread, hself⟩ := OptionalSelfRef.inv_reached hr
    cases hsr : st.container.self_ref with
    | none => simp [OptionalSelfRef.get_ref, hsr]
    | some p =>
        have hp := hself p hsr
        subst hp
        simp [OptionalSelfRef.get_ref, hsr, hread]

/-- Witness for C9: a no-reference container yields `none`, and the
reachable state `new_with_ref 99` yields a value precisely because its
`self_ref` is present. -/
theorem C9_get_ref_total_witness :
    OptionalSelfRef.get_ref (OptionalSelfRef.new_no_ref (42 : Nat)) = none ∧
    ((OptionalSelfRef.get_ref (OptionalSelfRef.new_with_ref (99 : Nat))).isSome ↔
      (OptionalSelfRef.new_with_ref (99 : Nat)).container.self_ref.isSome) :=
  ⟨C9_get_ref_total.1 Nat _ rfl,
   C9_get_ref_total.2 Nat _ (OptionalSelfRef.Reached.withRef 99)⟩

/-- C10: on every safely-reachable state, a present `self_ref` holds
the address of the separate heap allocation carrying the boxed data,
never the container's own storage address; consequently, after
force-unlocking a `new_with_ref` container with
`Pin::into_inner_unchecked` and moving the container value, `get_ref`
still returns the originally constructed value, since relocating the
container does not relocate the boxed data. -/
theorem C10_self_ref_points_at_box (T : Type) (v : T) :
    (∀ st : CState T, OptionalSelfRef.Reached st →
      ∀ p, st.container.self_ref = some p →
        p = st.container.dataAddr ∧ p ≠ st.containerAddr) ∧
    OptionalSelfRef.get_ref
      (OptionalSelfRef.moveValue
        (OptionalSelfRef.intoInnerUnchecked
          (OptionalSelfRef.new_with_ref v))) = some v := by
  constructor
  · intro st hr p hp
    obtain ⟨-, -, hne, -, hself⟩ := OptionalSelfRef.inv_reached hr
    have hpd := hself p hp
    exact ⟨hpd, by rw [hpd]; exact hne⟩
  · rfl

/-- Witness for C10 at the program's example value 99: the pointer of
`new_with_ref 99` is the boxed data's address (1), distinct from the
container's storage address, and `get_ref` after force-unlock and move
still returns 99. -/
theorem C10_self_ref_points_at_box_witness :
    (1 = (OptionalSelfRef.new_with_ref (99 : Nat)).container.dataAddr ∧
      1 ≠ (OptionalSelfRef.new_with_ref (99 : Nat)).containerAddr) ∧
    OptionalSelfRef.get_ref
      (OptionalSelfRef.moveValue
        (OptionalSelfRef.intoInnerUnchecked
          (OptionalSelfRef.new_with_ref (99 : Nat)))) = some 99 :=
  ⟨(C10_self_ref_points_at_box Nat 99).1 _
      (OptionalSelfRef.Reached.withRef 99) 1 rfl,
   (C10_self_ref_points_at_box Nat 99).2⟩

/-- C1: refuted on the code as written.  Because of the blanket
`impl<T> Unpin for OptionalSelfRef<T> where T: 'static {}`, the
`Unpin` obligation of `Pin::into_inner` holds for every `T`, so the
safe API does take a `new_with_ref` container (here the program's own
example, value 99) from its locked handle to an unlocked and then
freely moved state whose `self_ref` is still set — contradicting the
claim that every safe step sequence keeps it Referenced-and-Locked. -/
theorem C1_blanket_unpin_allows_safe_unlock :
    OptionalSelfRef.unpinImpl Nat ∧
    OptionalSelfRef.SafeReach (OptionalSelfRef.new_with_ref (99 : Nat))
      (OptionalSelfRef.moveValue
        { OptionalSelfRef.new_with_ref (99 : Nat) with pinned := false }) ∧
    (OptionalSelfRef.new_with_ref (99 : Nat)).pinned = true ∧
    (OptionalSelfRef.moveValue
      { OptionalSelfRef.new_with_ref (99 : Nat) with
        pinned := false }).pinned = false ∧
    (OptionalSelfRef.moveValue
      { OptionalSelfRef.new_with_ref (99 : Nat) with
        pinned := false }).container.self_ref =
      some (OptionalSelfRef.new_with_ref (99 : Nat)).container.dataAddr := by
  refine ⟨trivial, ?_, rfl, rfl, rfl⟩
  exact .tail (.tail (.refl _) (.intoInner _ rfl trivial)) (.moveBinding _ rfl)
